import Mathlib

/-!
# Furniture customizer — verification of the canvas history and REST routes

Shallow embedding of the undo/redo history mechanism of the canvas
component (`CanvasWorkspace`), of its editing operations, and of the
Express route handlers with their Drizzle schema, translated from the
TypeScript source.  Theorems settle the frozen claims about this code.
-/

namespace FurnitureCustomizer

/-- JavaScript `Array.prototype.slice(0, e)`: a negative end index counts
from the end of the array, and the result is clamped to the array bounds. -/
def jsSlice (l : List String) (e : Int) : List String :=
  if e < 0 then l.take ((l.length : Int) + e).toNat else l.take e.toNat

/-- The undo/redo history of the canvas component: `historyRef.current`
(the list of serialized snapshots) and `historyIndexRef.current`
(the cursor, a JavaScript number, initially `-1`). -/
structure HistoryState where
  history : List String
  index : Int
  deriving DecidableEq

/-- `historyRef = []`, `historyIndexRef = -1` at component mount. -/
def initialHistory : HistoryState := ⟨[], -1⟩

/-- `saveHistory` from the source:
`historyIndexRef.current++;`
`historyRef.current = historyRef.current.slice(0, historyIndexRef.current);`
`historyRef.current.push(json);`
`if (historyRef.current.length > 50) { historyRef.current.shift(); historyIndexRef.current--; }` -/
def saveHistory (s : HistoryState) (json : String) : HistoryState :=
  let idx := s.index + 1
  let h := jsSlice s.history idx ++ [json]
  if h.length > 50 then ⟨h.tail, idx - 1⟩ else ⟨h, idx⟩

/-- `undo` from the source: it returns early when
`historyIndexRef.current <= 0`, otherwise decrements the cursor and
replays the snapshot at the new cursor (the buffer itself is untouched). -/
def undo (s : HistoryState) : HistoryState :=
  if s.index ≤ 0 then s else { s with index := s.index - 1 }

/-- `redo` from the source: it returns early when
`historyIndexRef.current >= historyRef.current.length - 1`, otherwise
increments the cursor and replays the snapshot at the new cursor. -/
def redo (s : HistoryState) : HistoryState :=
  if s.index ≥ (s.history.length : Int) - 1 then s else { s with index := s.index + 1 }

/-- The snapshot the cursor currently points at. -/
def currentSnapshot (s : HistoryState) : Option String := s.history.get? s.index.toNat

/-- Reachability invariant of the history state: either the buffer is
empty with the cursor at `-1` (the initial state), or the cursor is a valid
index into the buffer. -/
def WF (s : HistoryState) : Prop :=
  (s.history = [] ∧ s.index = -1) ∨ (0 ≤ s.index ∧ s.index < (s.history.length : Int))

instance (s : HistoryState) : Decidable (WF s) := by
  unfold WF
  infer_instance

lemma jsSlice_of_nonneg (l : List String) (e : Int) (h : 0 ≤ e) :
    jsSlice l e = l.take e.toNat := by
  unfold jsSlice
  rw [if_neg (by omega)]

lemma WF.le_index {s : HistoryState} (h : WF s) : -1 ≤ s.index := by
  rcases h with ⟨_, h2⟩ | ⟨h1, _⟩ <;> omega

lemma WF.index_lt {s : HistoryState} (h : WF s) : s.index < (s.history.length : Int) := by
  rcases h with ⟨h1, h2⟩ | ⟨_, h2⟩
  · rw [h1, h2]; simp
  · exact h2

/-- `saveHistory` written with `List.take`, valid as soon as the cursor is
at least `-1` (so that the JavaScript slice end index is nonnegative). -/
lemma saveHistory_eq (s : HistoryState) (j : String) (h : -1 ≤ s.index) :
    saveHistory s j =
      if (s.history.take (s.index + 1).toNat ++ [j]).length > 50 then
        ⟨(s.history.take (s.index + 1).toNat ++ [j]).tail, s.index⟩
      else
        ⟨s.history.take (s.index + 1).toNat ++ [j], s.index + 1⟩ := by
  simp only [saveHistory]
  rw [jsSlice_of_nonneg _ _ (by omega)]
  split
  · congr 1
    omega
  · rfl

/-- The snapshot just pushed is always the last entry of the buffer. -/
lemma getLast?_saveHistory (s : HistoryState) (j : String) :
    (saveHistory s j).history.getLast? = some j := by
  simp only [saveHistory]
  split
  case isTrue hgt =>
    have hne : jsSlice s.history (s.index + 1) ≠ [] := by
      intro hnil
      rw [hnil] at hgt
      simp at hgt
    obtain ⟨a, l', hl⟩ := List.exists_cons_of_ne_nil hne
    rw [hl]
    simp [List.getLast?_concat]
  case isFalse =>
    simp [List.getLast?_concat]

lemma WF_saveHistory {s : HistoryState} (j : String) (h : WF s) :
    WF (saveHistory s j) := by
  have h1 := h.le_index
  have h2 := h.index_lt
  rw [saveHistory_eq s j h1]
  have hkle : (s.index + 1).toNat ≤ s.history.length := by omega
  have hlen : (s.history.take (s.index + 1).toNat ++ [j]).length
      = (s.index + 1).toNat + 1 := by
    simp [List.length_take]
    omega
  split
  case isTrue hgt =>
    rw [hlen] at hgt
    right
    constructor
    · show (0 : Int) ≤ s.index
      omega
    · show s.index < (((s.history.take (s.index + 1).toNat ++ [j]).tail).length : Int)
      rw [List.length_tail, hlen]
      omega
  case isFalse =>
    right
    constructor
    · show (0 : Int) ≤ s.index + 1
      omega
    · show s.index + 1 < ((s.history.take (s.index + 1).toNat ++ [j]).length : Int)
      rw [hlen]
      omega

lemma WF_undo {s : HistoryState} (h : WF s) : WF (undo s) := by
  unfold undo
  split
  · exact h
  · right
    have := h.index_lt
    constructor <;> simp <;> omega

lemma WF_redo {s : HistoryState} (h : WF s) : WF (redo s) := by
  unfold redo
  split
  · exact h
  case isFalse hlt =>
    right
    have := h.le_index
    rcases h with ⟨h1, h2⟩ | ⟨h1, h2⟩
    · rw [h1] at hlt
      simp at hlt
      omega
    · constructor <;> simp <;> omega

lemma WF_initialHistory : WF initialHistory := by
  left
  exact ⟨rfl, rfl⟩

/-- C3: `undo` decrements the cursor by exactly 1 iff the cursor is
positive, `redo` increments it by exactly 1 iff the cursor is below the
last buffer index; otherwise the whole state is unchanged, and neither
operation ever changes the history buffer itself. -/
theorem undo_redo_cursor (s : HistoryState) :
    ((undo s).index = s.index - 1 ↔ 0 < s.index) ∧
    (undo s = s ↔ s.index ≤ 0) ∧
    (undo s).history = s.history ∧
    ((redo s).index = s.index + 1 ↔ s.index < (s.history.length : Int) - 1) ∧
    (redo s = s ↔ (s.history.length : Int) - 1 ≤ s.index) ∧
    (redo s).history = s.history := by
  unfold undo redo
  refine ⟨?_, ?_, ?_, ?_, ?_, ?_⟩
  · split
    case isTrue h => exact iff_of_false (by omega) (by omega)
    case isFalse h => exact iff_of_true rfl (by omega)
  · split
    case isTrue h => exact iff_of_true rfl h
    case isFalse h =>
      refine iff_of_false ?_ h
      intro heq
      have hidx := congrArg HistoryState.index heq
      simp at hidx
  · split <;> rfl
  · split
    case isTrue h => exact iff_of_false (by omega) (by omega)
    case isFalse h => exact iff_of_true rfl (by omega)
  · split
    case isTrue h => exact iff_of_true rfl (by omega)
    case isFalse h =>
      refine iff_of_false ?_ (by omega)
      intro heq
      have hidx := congrArg HistoryState.index heq
      simp at hidx
  · split <;> rfl

/-- A full history buffer (50 snapshots, cursor on the last one), as
reached after 50 pushes from the initial state. -/
def fullHistory : HistoryState := ⟨List.replicate 50 "a", 49⟩

/-- C1 counterexample: at a full 50-entry buffer, `saveHistory` does not
yield `history[0..cursor] ++ [snapshot]` with the cursor at `cursor + 1` —
the capacity eviction drops index 0 and keeps the cursor at 49. -/
theorem saveHistory_cap_cex :
    ¬ ((saveHistory fullHistory "b").history
         = fullHistory.history.take (fullHistory.index + 1).toNat ++ ["b"] ∧
       (saveHistory fullHistory "b").index = fullHistory.index + 1) := by
  decide

/-- C1 (amended): pushing a snapshot yields `history[0..cursor] ++ [snapshot]`
with the cursor moved to the pushed snapshot, except when that list would
exceed 50 entries, in which case its first element is additionally dropped
and the cursor stays one lower; in both cases the cursor points at the
newly pushed snapshot, which ends the buffer. -/
theorem saveHistory_push (s : HistoryState) (j : String) (hwf : WF s) :
    ((s.history.take (s.index + 1).toNat ++ [j]).length ≤ 50 →
       saveHistory s j = ⟨s.history.take (s.index + 1).toNat ++ [j], s.index + 1⟩) ∧
    (50 < (s.history.take (s.index + 1).toNat ++ [j]).length →
       saveHistory s j = ⟨(s.history.take (s.index + 1).toNat ++ [j]).tail, s.index⟩) ∧
    (saveHistory s j).history.getLast? = some j ∧
    (saveHistory s j).index = ((saveHistory s j).history.length : Int) - 1 := by
  have h1 := hwf.le_index
  have h2 := hwf.index_lt
  have heq := saveHistory_eq s j h1
  have hkle : (s.index + 1).toNat ≤ s.history.length := by omega
  have hlen : (s.history.take (s.index + 1).toNat ++ [j]).length
      = (s.index + 1).toNat + 1 := by
    simp [List.length_take]
    omega
  refine ⟨?_, ?_, getLast?_saveHistory s j, ?_⟩
  · intro hle
    rw [heq, if_neg (by omega)]
  · intro hgt
    rw [heq, if_pos (by omega)]
  · rw [heq]
    split
    case isTrue hgt =>
      show s.index = (((s.history.take (s.index + 1).toNat ++ [j]).tail).length : Int) - 1
      rw [List.length_tail, hlen]
      rw [hlen] at hgt
      omega
    case isFalse =>
      show s.index + 1 = (((s.history.take (s.index + 1).toNat ++ [j])).length : Int) - 1
      rw [hlen]
      omega

theorem saveHistory_push_witness :
    WF (⟨["a"], 0⟩ : HistoryState) ∧
    ((["a"] : List String).take ((0 : Int) + 1).toNat ++ ["b"]).length ≤ 50 ∧
    saveHistory ⟨["a"], 0⟩ "b" = ⟨["a", "b"], 1⟩ :=
  ⟨by decide, by decide, by
    have h := (saveHistory_push ⟨["a"], 0⟩ "b" (by decide)).1 (by decide)
    simpa using h⟩

/-- C2: the history buffer never exceeds 50 entries: the bound is
preserved by `saveHistory`, `undo` and `redo`, and whenever a push would
exceed it, the oldest entry (index 0) is dropped and the cursor is
decremented by one relative to where the push had placed it. -/
theorem history_bounded (s : HistoryState) (j : String) (hwf : WF s)
    (hlen : s.history.length ≤ 50) :
    (saveHistory s j).history.length ≤ 50 ∧
    (undo s).history.length ≤ 50 ∧
    (redo s).history.length ≤ 50 ∧
    (50 < (s.history.take (s.index + 1).toNat ++ [j]).length →
       (saveHistory s j).history = (s.history.take (s.index + 1).toNat ++ [j]).tail ∧
       (saveHistory s j).index = (s.index + 1) - 1) := by
  have h1 := hwf.le_index
  have h2 := hwf.index_lt
  have heq := saveHistory_eq s j h1
  have hkle : (s.index + 1).toNat ≤ s.history.length := by omega
  have hl : (s.history.take (s.index + 1).toNat ++ [j]).length
      = (s.index + 1).toNat + 1 := by
    simp [List.length_take]
    omega
  refine ⟨?_, ?_, ?_, ?_⟩
  · rw [heq]
    split
    case isTrue hgt =>
      show ((s.history.take (s.index + 1).toNat ++ [j]).tail).length ≤ 50
      rw [List.length_tail, hl]
      omega
    case isFalse hng =>
      show (s.history.take (s.index + 1).toNat ++ [j]).length ≤ 50
      omega
  · rw [(undo_redo_cursor s).2.2.1]
    exact hlen
  · rw [(undo_redo_cursor s).2.2.2.2.2]
    exact hlen
  · intro hgt
    rw [heq, if_pos (by omega)]
    refine ⟨rfl, ?_⟩
    show s.index = (s.index + 1) - 1
    omega

theorem history_bounded_witness :
    WF fullHistory ∧ fullHistory.history.length ≤ 50 ∧
    (saveHistory fullHistory "b").history.length ≤ 50 :=
  ⟨by decide, by decide, (history_bounded fullHistory "b" (by decide) (by decide)).1⟩

/-- C9: on a reachable history state where undo is enabled (cursor > 0),
redo after undo restores exactly the cursor and current snapshot; where
redo is enabled (cursor below the last index), undo after redo restores
the pre-redo state likewise. -/
theorem undo_redo_inverse (s : HistoryState) (hwf : WF s) :
    (0 < s.index →
       redo (undo s) = s ∧ currentSnapshot (redo (undo s)) = currentSnapshot s) ∧
    (s.index < (s.history.length : Int) - 1 →
       undo (redo s) = s ∧ currentSnapshot (undo (redo s)) = currentSnapshot s) := by
  have h2 := hwf.index_lt
  constructor
  · intro hpos
    have hu : undo s = ⟨s.history, s.index - 1⟩ := by
      unfold undo
      rw [if_neg (by omega)]
    have hst : redo (undo s) = s := by
      rw [hu]
      unfold redo
      rw [if_neg (show ¬ s.index - 1 ≥ (s.history.length : Int) - 1 by omega)]
      show HistoryState.mk s.history (s.index - 1 + 1) = s
      have hi : s.index - 1 + 1 = s.index := by omega
      rw [hi]
    exact ⟨hst, by rw [hst]⟩
  · intro hlt
    have hge : 0 ≤ s.index := by
      rcases hwf with ⟨hh, hi⟩ | ⟨hi, _⟩
      · rw [hh] at hlt
        simp at hlt
        omega
      · exact hi
    have hr : redo s = ⟨s.history, s.index + 1⟩ := by
      unfold redo
      rw [if_neg (by omega)]
    have hst : undo (redo s) = s := by
      rw [hr]
      unfold undo
      rw [if_neg (show ¬ s.index + 1 ≤ 0 by omega)]
      show HistoryState.mk s.history (s.index + 1 - 1) = s
      have hi : s.index + 1 - 1 = s.index := by omega
      rw [hi]
    exact ⟨hst, by rw [hst]⟩

theorem undo_redo_inverse_witness :
    WF (⟨["a", "b", "c"], 1⟩ : HistoryState) ∧
    (0 : Int) < 1 ∧ (1 : Int) < ((3 : Nat) : Int) - 1 ∧
    redo (undo ⟨["a", "b", "c"], 1⟩) = ⟨["a", "b", "c"], 1⟩ ∧
    undo (redo ⟨["a", "b", "c"], 1⟩) = ⟨["a", "b", "c"], 1⟩ :=
  ⟨by decide, by decide, by decide,
   ((undo_redo_inverse ⟨["a", "b", "c"], 1⟩ (by decide)).1 (by decide)).1,
   ((undo_redo_inverse ⟨["a", "b", "c"], 1⟩ (by decide)).2 (by decide)).1⟩

/-!
## The canvas editor

A fabric.js canvas object, restricted to the properties the component
reads or writes.  Numeric properties are rationals (JavaScript numbers in
the source only ever carry the small decimal values set below, so no
floating-point rounding is observable in the modeled operations).
-/

structure FabObject where
  type : String
  fill : String := ""
  opacity : Rat := 1
  globalCompositeOperation : String := "source-over"
  left : Rat := 0
  top : Rat := 0
  width : Rat := 0
  height : Rat := 0
  radius : Rat := 0
  deriving DecidableEq

def ratStr (q : Rat) : String := toString q.num ++ "/" ++ toString q.den

/-- One object of `canvas.toJSON()`: every modeled property, rendered into
the serialization. -/
def serializeObj (o : FabObject) : String :=
  o.type ++ "," ++ o.fill ++ "," ++ ratStr o.opacity ++ ","
    ++ o.globalCompositeOperation ++ "," ++ ratStr o.left ++ "," ++ ratStr o.top
    ++ "," ++ ratStr o.width ++ "," ++ ratStr o.height ++ "," ++ ratStr o.radius

/-- `JSON.stringify(canvas.toJSON())`: the full canvas state — all objects
with all their properties — as a single string. -/
def serializeCanvas (objs : List FabObject) : String :=
  String.intercalate ";" (objs.map serializeObj)

/-- The canvas component's state: the fabric canvas object list, the
active (selected) object if any, and the undo/redo history. -/
structure Editor where
  canvas : List FabObject
  active : Option Nat
  hist : HistoryState
  deriving DecidableEq

/-- `fabricCanvasRef.current.getActiveObject()`. -/
def getActiveObject (e : Editor) : Option FabObject :=
  match e.active with
  | none => none
  | some i => e.canvas[i]?

/-- The `selectedColor` effect: if the active object exists and is not of
type `'image'`, set its `fill` and save a history snapshot. -/
def applySelectedColor (e : Editor) (color : String) : Editor :=
  match e.active with
  | none => e
  | some i =>
    match e.canvas[i]? with
    | none => e
    | some obj =>
      if obj.type = "image" then e
      else
        let canvas' := e.canvas.set i { obj with fill := color }
        { e with canvas := canvas', hist := saveHistory e.hist (serializeCanvas canvas') }

/-- `setOpacity` from the imperative handle: skips `'image'` objects, sets
`opacity / 100` on the active object and saves a history snapshot. -/
def setOpacity (e : Editor) (opacity : Rat) : Editor :=
  match e.active with
  | none => e
  | some i =>
    match e.canvas[i]? with
    | none => e
    | some obj =>
      if obj.type = "image" then e
      else
        let canvas' := e.canvas.set i { obj with opacity := opacity / 100 }
        { e with canvas := canvas', hist := saveHistory e.hist (serializeCanvas canvas') }

/-- `setBlendMode` from the imperative handle: skips `'image'` objects,
sets `globalCompositeOperation` on the active object and saves a history
snapshot. -/
def setBlendMode (e : Editor) (mode : String) : Editor :=
  match e.active with
  | none => e
  | some i =>
    match e.canvas[i]? with
    | none => e
    | some obj =>
      if obj.type = "image" then e
      else
        let canvas' := e.canvas.set i { obj with globalCompositeOperation := mode }
        { e with canvas := canvas', hist := saveHistory e.hist (serializeCanvas canvas') }

/-- A user interaction that leaves the canvas objects in state `canvas'`,
followed by the `canvas.on('object:modified', () => saveHistory())`
handler, which serializes the mutated canvas and pushes the snapshot. -/
def objectModified (e : Editor) (canvas' : List FabObject) : Editor :=
  { e with canvas := canvas', hist := saveHistory e.hist (serializeCanvas canvas') }

/-- `addRectangle`: appends the new `Rect`; `canvas.add` fires the
`'object:added'` handler (one `saveHistory`), the rectangle becomes the
active object, and the trailing explicit `saveHistory()` pushes again. -/
def addRectangle (e : Editor) (selectedColor : Option String) : Editor :=
  let rect : FabObject :=
    { type := "rect", fill := selectedColor.getD "#C0C0C0", opacity := 7 / 10,
      globalCompositeOperation := "multiply", left := 100, top := 100,
      width := 150, height := 100 }
  let canvas' := e.canvas ++ [rect]
  let h1 := saveHistory e.hist (serializeCanvas canvas')
  { canvas := canvas', active := some e.canvas.length,
    hist := saveHistory h1 (serializeCanvas canvas') }

/-- `addCircle`: same event sequence as `addRectangle`, with a `Circle`. -/
def addCircle (e : Editor) (selectedColor : Option String) : Editor :=
  let circle : FabObject :=
    { type := "circle", fill := selectedColor.getD "#C0C0C0", opacity := 7 / 10,
      globalCompositeOperation := "multiply", left := 200, top := 200,
      radius := 50 }
  let canvas' := e.canvas ++ [circle]
  let h1 := saveHistory e.hist (serializeCanvas canvas')
  { canvas := canvas', active := some e.canvas.length,
    hist := saveHistory h1 (serializeCanvas canvas') }

/-- `resetCanvas`: iterates over a copy of `getObjects()` and removes every
object whose type is not `'image'` (removal discards any selection of a
removed object; the selection is not read afterwards). -/
def resetCanvas (e : Editor) : Editor :=
  { e with canvas := e.canvas.filter (fun o => o.type == "image"), active := none }

/-- The guard shared by the three imperative edits: an active object
exists and is not of type `'image'`. -/
def hasEditableActive (e : Editor) : Bool :=
  match e.active with
  | none => false
  | some i =>
    match e.canvas[i]? with
    | none => false
    | some obj => obj.type != "image"

/-- The most recent snapshot of a history buffer. -/
def lastSnap (h : HistoryState) : Option String := h.history.getLast?

/-- C4: every canvas mutation — object added, object modified, fill
application, opacity change, blend-mode change — serializes the entire
resulting canvas to a single string and appends that snapshot to the
history buffer. -/
theorem mutation_appends_snapshot (e : Editor) (color mode : String) (v : Rat)
    (sc : Option String) (canvas' : List FabObject)
    (hact : hasEditableActive e = true) :
    lastSnap (objectModified e canvas').hist
      = some (serializeCanvas (objectModified e canvas').canvas) ∧
    lastSnap (addRectangle e sc).hist
      = some (serializeCanvas (addRectangle e sc).canvas) ∧
    lastSnap (addCircle e sc).hist
      = some (serializeCanvas (addCircle e sc).canvas) ∧
    lastSnap (applySelectedColor e color).hist
      = some (serializeCanvas (applySelectedColor e color).canvas) ∧
    lastSnap (setOpacity e v).hist
      = some (serializeCanvas (setOpacity e v).canvas) ∧
    lastSnap (setBlendMode e mode).hist
      = some (serializeCanvas (setBlendMode e mode).canvas) := by
  obtain ⟨i, hi, obj, hobj, htype⟩ :
      ∃ i, e.active = some i ∧ ∃ obj, e.canvas[i]? = some obj ∧
        ¬ obj.type = "image" := by
    unfold hasEditableActive at hact
    cases hia : e.active with
    | none => simp [hia] at hact
    | some i =>
      simp only [hia] at hact
      cases hio : e.canvas[i]? with
      | none => simp [hio] at hact
      | some obj =>
        simp only [hio] at hact
        refine ⟨i, rfl, obj, hio, ?_⟩
        simpa using hact
  refine ⟨?_, ?_, ?_, ?_, ?_, ?_⟩
  · exact getLast?_saveHistory _ _
  · exact getLast?_saveHistory _ _
  · exact getLast?_saveHistory _ _
  · unfold applySelectedColor
    simp only [hi, hobj]
    rw [if_neg htype]
    exact getLast?_saveHistory _ _
  · unfold setOpacity
    simp only [hi, hobj]
    rw [if_neg htype]
    exact getLast?_saveHistory _ _
  · unfold setBlendMode
    simp only [hi, hobj]
    rw [if_neg htype]
    exact getLast?_saveHistory _ _

def sampleEditor : Editor :=
  { canvas := [{ type := "rect", fill := "#C0C0C0" }], active := some 0,
    hist := initialHistory }

theorem mutation_appends_snapshot_witness :
    hasEditableActive sampleEditor = true ∧
    lastSnap (applySelectedColor sampleEditor "#123456").hist
      = some (serializeCanvas (applySelectedColor sampleEditor "#123456").canvas) :=
  ⟨by decide,
   (mutation_appends_snapshot sampleEditor "#123456" "multiply" 50 none []
      (by decide)).2.2.2.1⟩

/-- C10: the background furniture image is never mutated or removed: the
fill, opacity and blend-mode edits leave every object of type `'image'`
exactly where and as it was, and `resetCanvas` removes precisely the
non-image objects, keeping each image object unchanged on the canvas. -/
theorem image_objects_untouched (e : Editor) (color mode : String) (v : Rat)
    (i : Nat) (o : FabObject)
    (hget : e.canvas[i]? = some o) (himg : o.type = "image") :
    (applySelectedColor e color).canvas[i]? = some o ∧
    (setOpacity e v).canvas[i]? = some o ∧
    (setBlendMode e mode).canvas[i]? = some o ∧
    (resetCanvas e).canvas = e.canvas.filter (fun ob => ob.type == "image") ∧
    o ∈ (resetCanvas e).canvas := by
  have hmem : o ∈ e.canvas := List.getElem?_mem hget
  have hset : ∀ (ia : Nat) (obj : FabObject), e.canvas[ia]? = some obj →
      ¬ obj.type = "image" → ∀ a : FabObject, (e.canvas.set ia a)[i]? = some o := by
    intro ia obj hia hobj a
    have hne : ia ≠ i := by
      intro hii
      rw [hii, hget] at hia
      cases hia
      exact hobj himg
    rw [List.getElem?_set_ne hne]
    exact hget
  refine ⟨?_, ?_, ?_, rfl, ?_⟩
  · unfold applySelectedColor
    cases hia : e.active with
    | none => simp only [hia]; exact hget
    | some ia =>
      simp only [hia]
      cases hio : e.canvas[ia]? with
      | none => simp only [hio]; exact hget
      | some obj =>
        simp only [hio]
        split
        · exact hget
        case isFalse htype => exact hset ia obj hio htype _
  · unfold setOpacity
    cases hia : e.active with
    | none => simp only [hia]; exact hget
    | some ia =>
      simp only [hia]
      cases hio : e.canvas[ia]? with
      | none => simp only [hio]; exact hget
      | some obj =>
        simp only [hio]
        split
        · exact hget
        case isFalse htype => exact hset ia obj hio htype _
  · unfold setBlendMode
    cases hia : e.active with
    | none => simp only [hia]; exact hget
    | some ia =>
      simp only [hia]
      cases hio : e.canvas[ia]? with
      | none => simp only [hio]; exact hget
      | some obj =>
        simp only [hio]
        split
        · exact hget
        case isFalse htype => exact hset ia obj hio htype _
  · show o ∈ e.canvas.filter (fun ob => ob.type == "image")
    rw [List.mem_filter]
    exact ⟨hmem, by simp [himg]⟩

def imageEditor : Editor :=
  { canvas := [{ type := "image" }, { type := "rect", fill := "#C0C0C0" }],
    active := some 1, hist := initialHistory }

theorem image_objects_untouched_witness :
    imageEditor.canvas[0]? = some { type := "image" } ∧
    ({ type := "image" } : FabObject).type = "image" ∧
    (applySelectedColor imageEditor "#123456").canvas[0]?
      = some { type := "image" } :=
  ⟨by decide, by decide,
   (image_objects_untouched imageEditor "#123456" "multiply" 50 0 { type := "image" }
      (by decide) (by decide)).1⟩

/-!
## The server: schema rows and route handlers

The five Drizzle tables from `shared/schema`, as plain rows, and the
Express route handlers from `server/routes`, as functions on a `DB`
value.  Drizzle/Postgres query semantics (`select().where(eq ...)`,
`limit(1)`, `update ... returning`, `delete ... where`, and the
`onDelete: 'cascade'` foreign keys declared in the schema) are embedded
as the corresponding list operations.
-/

structure Project where
  id : String
  name : String
  description : Option String
  previewImageUrl : Option String
  createdAt : Nat
  updatedAt : Nat
  deriving DecidableEq

structure ProjectImage where
  id : String
  projectId : String
  originalImagePath : String
  mimeType : String
  width : Int
  height : Int
  createdAt : Nat
  deriving DecidableEq

structure ColorRegion where
  id : String
  projectId : String
  name : String
  fabricObject : String
  fillHex : String
  opacity : Rat
  blendMode : String
  zIndex : Int
  createdAt : Nat
  deriving DecidableEq

structure RecentColor where
  id : String
  projectId : Option String
  hex : String
  colorCode : Option String
  colorName : Option String
  usedAt : Nat
  deriving DecidableEq

structure CanvasRow where
  id : String
  projectId : String
  canvasJson : String
  zoom : Rat
  updatedAt : Nat
  deriving DecidableEq

structure DB where
  projects : List Project
  projectImages : List ProjectImage
  colorRegions : List ColorRegion
  recentColors : List RecentColor
  canvasStates : List CanvasRow
  deriving DecidableEq

structure HttpResponse where
  status : Nat
  body : String
  deriving DecidableEq

/-- The multer MIME allow-list from the source. -/
def ALLOWED_MIME_TYPES : List String :=
  ["image/jpeg", "image/jpg", "image/png", "image/gif", "image/webp"]

/-- `limits: { fileSize: 10 * 1024 * 1024 }` — the 10MB limit. -/
def MAX_FILE_SIZE : Nat := 10 * 1024 * 1024

structure UploadFile where
  originalname : String
  mimetype : String
  size : Nat
  deriving DecidableEq

/-- The multer `fileFilter` from the source: accept iff the MIME type is
in the allow-list, else fail with the validation error. -/
def fileFilter (f : UploadFile) : Except String Unit :=
  if ALLOWED_MIME_TYPES.contains f.mimetype then Except.ok ()
  else Except.error "Invalid file type. Only images are allowed."

/-- The multer `limits.fileSize` check: a file beyond the limit aborts the
upload with a `LIMIT_FILE_SIZE` error ("File too large"). -/
def sizeLimitCheck (f : UploadFile) : Except String Unit :=
  if f.size > MAX_FILE_SIZE then Except.error "File too large" else Except.ok ()

/-- Modelled from the spec: the Express server entry point that installs
the error-handling middleware is not under `src/` (only the route
registrations are); per the spec, "Validation failures surface as HTTP
400 with the validation error." -/
def surfaceValidationError (msg : String) : HttpResponse := ⟨400, msg⟩

/-- `POST /api/upload`: multer validation (fileFilter and size limit),
then the handler; a missing file is answered 400 by the handler itself.
The success body stands in for the JSON payload (path, filename, size,
mimetype), which no claim inspects. -/
def postUpload (f : Option UploadFile) : HttpResponse :=
  match f with
  | none => ⟨400, "No file uploaded"⟩
  | some file =>
    match fileFilter file with
    | Except.error msg => surfaceValidationError msg
    | Except.ok _ =>
      match sizeLimitCheck file with
      | Except.error msg => surfaceValidationError msg
      | Except.ok _ => ⟨200, "uploaded"⟩

/-- C5: every upload whose file exceeds 10MB or whose MIME type is outside
the allow-list is rejected with HTTP 400 carrying the validation error. -/
theorem upload_validation_rejected (f : UploadFile)
    (hbad : MAX_FILE_SIZE < f.size ∨ f.mimetype ∉ ALLOWED_MIME_TYPES) :
    (postUpload (some f)).status = 400 ∧
    ((postUpload (some f)).body = "Invalid file type. Only images are allowed." ∨
     (postUpload (some f)).body = "File too large") := by
  simp only [postUpload, fileFilter, sizeLimitCheck]
  by_cases hmime : ALLOWED_MIME_TYPES.contains f.mimetype
  · have hsize : MAX_FILE_SIZE < f.size := by
      rcases hbad with h | h
      · exact h
      · exact absurd (List.elem_iff.mp hmime) h
    rw [if_pos hmime, if_pos hsize]
    exact ⟨rfl, Or.inr rfl⟩
  · rw [if_neg hmime]
    exact ⟨rfl, Or.inl rfl⟩

theorem upload_validation_rejected_witness :
    (MAX_FILE_SIZE < 10 ∨ "application/pdf" ∉ ALLOWED_MIME_TYPES) ∧
    (postUpload (some ⟨"doc.pdf", "application/pdf", 10⟩)).status = 400 :=
  ⟨Or.inr (by decide),
   (upload_validation_rejected ⟨"doc.pdf", "application/pdf", 10⟩
      (Or.inr (by decide))).1⟩

inductive GetProjectResult where
  | notFound : GetProjectResult
  | found : Project → List ProjectImage → List ColorRegion → Option CanvasRow →
      GetProjectResult
  deriving DecidableEq

/-- `GET /api/projects/:id`: select the project (`limit(1)`); 404 when no
row matches, else aggregate the project's images, color regions and
canvas state (`limit(1)`). -/
def getProjectById (db : DB) (id : String) : GetProjectResult :=
  match (db.projects.filter (fun p => p.id == id)).take 1 with
  | [] => GetProjectResult.notFound
  | p :: _ =>
    GetProjectResult.found p
      (db.projectImages.filter (fun im => im.projectId == id))
      (db.colorRegions.filter (fun r => r.projectId == id))
      ((db.canvasStates.filter (fun c => c.projectId == id)).take 1).head?

def getStatus : GetProjectResult → Nat
  | GetProjectResult.notFound => 404
  | GetProjectResult.found _ _ _ _ => 200

/-- The body accepted by `insertProjectSchema` (id and timestamps omitted
by the schema). -/
structure InsertProject where
  name : String
  description : Option String
  previewImageUrl : Option String
  deriving DecidableEq

inductive PutProjectResult where
  | notFound : PutProjectResult
  | ok : Project → PutProjectResult
  deriving DecidableEq

/-- `.set({ ...validated, updatedAt: new Date() })` applied to one row. -/
def applyUpdate (body : InsertProject) (now : Nat) (p : Project) : Project :=
  { p with name := body.name, description := body.description,
           previewImageUrl := body.previewImageUrl, updatedAt := now }

/-- `PUT /api/projects/:id`: update the rows matching the id and return
them; when no row was updated, respond 404 and leave the store as it is. -/
def putProject (db : DB) (id : String) (body : InsertProject) (now : Nat) :
    DB × PutProjectResult :=
  let updatedRows := (db.projects.filter (fun p => p.id == id)).map (applyUpdate body now)
  match updatedRows.head? with
  | none => (db, PutProjectResult.notFound)
  | some p =>
    ({ db with projects :=
        db.projects.map (fun q => if q.id == id then applyUpdate body now q else q) },
     PutProjectResult.ok p)

def putStatus : PutProjectResult → Nat
  | PutProjectResult.notFound => 404
  | PutProjectResult.ok _ => 200

/-- C6: for an id matching no stored project, `GET /api/projects/:id` and
`PUT /api/projects/:id` both answer 404 (and PUT changes nothing), while
for an existing id GET answers 200 with the aggregated project, its
images, color regions and canvas state. -/
theorem get_put_project_contract (db : DB) (id : String) (body : InsertProject)
    (now : Nat) :
    ((db.projects.filter (fun p => p.id == id)) = [] →
       getStatus (getProjectById db id) = 404 ∧
       putStatus (putProject db id body now).2 = 404 ∧
       (putProject db id body now).1 = db) ∧
    (∀ p, (db.projects.filter (fun q => q.id == id)).head? = some p →
       getProjectById db id
         = GetProjectResult.found p
             (db.projectImages.filter (fun im => im.projectId == id))
             (db.colorRegions.filter (fun r => r.projectId == id))
             ((db.canvasStates.filter (fun c => c.projectId == id)).take 1).head? ∧
       getStatus (getProjectById db id) = 200) := by
  constructor
  · intro hnil
    refine ⟨?_, ?_, ?_⟩
    · unfold getProjectById
      rw [hnil]
      rfl
    · unfold putProject
      rw [hnil]
      rfl
    · unfold putProject
      rw [hnil]
      rfl
  · intro p hp
    cases hf : db.projects.filter (fun q => q.id == id) with
    | nil => rw [hf] at hp; cases hp
    | cons q t =>
      rw [hf] at hp
      have hq : q = p := by
        simpa using hp
      subst hq
      unfold getProjectById
      rw [hf]
      exact ⟨rfl, rfl⟩

def sampleDB : DB :=
  { projects := [⟨"p1", "Sofa", none, none, 0, 0⟩],
    projectImages := [⟨"i1", "p1", "/uploads/a.png", "image/png", 10, 10, 0⟩],
    colorRegions := [],
    recentColors := [],
    canvasStates := [⟨"c1", "p1", "json", 1, 0⟩] }

theorem get_put_project_contract_witness :
    (sampleDB.projects.filter (fun p => p.id == "zzz")) = [] ∧
    getStatus (getProjectById sampleDB "zzz") = 404 ∧
    (sampleDB.projects.filter (fun q => q.id == "p1")).head?
      = some ⟨"p1", "Sofa", none, none, 0, 0⟩ ∧
    getStatus (getProjectById sampleDB "p1") = 200 :=
  ⟨by decide,
   ((get_put_project_contract sampleDB "zzz" ⟨"n", none, none⟩ 0).1 (by decide)).1,
   by decide,
   ((get_put_project_contract sampleDB "p1" ⟨"n", none, none⟩ 0).2
      ⟨"p1", "Sofa", none, none, 0, 0⟩ (by decide)).2⟩

/-- `.set({ ...validated, updatedAt: new Date() })` for the canvas-state
upsert (the validated body carries `projectId: id`). -/
def upsertRow (id canvasJson : String) (zoom : Rat) (now : Nat) (r : CanvasRow) :
    CanvasRow :=
  { r with projectId := id, canvasJson := canvasJson, zoom := zoom, updatedAt := now }

/-- `POST /api/projects/:id/canvas`: select the existing canvas state for
the project (`limit(1)`); when one exists, update it in place, otherwise
insert a new row. -/
def postCanvasState (db : DB) (id : String) (canvasJson : String) (zoom : Rat)
    (now : Nat) (newId : String) : DB :=
  let existing := (db.canvasStates.filter (fun c => c.projectId == id)).take 1
  if existing.length > 0 then
    { db with canvasStates := db.canvasStates.map (fun r => if r.projectId == id then upsertRow id canvasJson zoom now r else r) }
  else
    { db with canvasStates := db.canvasStates ++ [⟨newId, id, canvasJson, zoom, now⟩] }

/-- How many canvas-state rows reference a project. -/
def countCanvasRows (db : DB) (id : String) : Nat :=
  (db.canvasStates.filter (fun c => c.projectId == id)).length

lemma filter_map_upsert (l : List CanvasRow) (id cj : String) (z : Rat) (n : Nat) :
    ((l.map (fun r => if r.projectId == id then upsertRow id cj z n r else r)).filter
        (fun c => c.projectId == id)).length
      = (l.filter (fun c => c.projectId == id)).length := by
  induction l with
  | nil => rfl
  | cons a t ih =>
    by_cases h : a.projectId = id
    · simp [List.filter_cons, h, upsertRow]
      simpa [upsertRow] using ih
    · simp [List.filter_cons, h]
      simpa using ih

lemma postCanvasState_insert (d : DB) (id cj : String) (z : Rat) (n : Nat)
    (ni : String) (h : countCanvasRows d id = 0) :
    (postCanvasState d id cj z n ni).canvasStates
      = d.canvasStates ++ [⟨ni, id, cj, z, n⟩] := by
  unfold countCanvasRows at h
  have hnil : d.canvasStates.filter (fun c => c.projectId == id) = [] :=
    List.length_eq_zero.mp h
  simp only [postCanvasState]
  rw [if_neg (by rw [hnil]; simp)]

lemma postCanvasState_update (d : DB) (id cj : String) (z : Rat) (n : Nat)
    (ni : String) (h : 0 < countCanvasRows d id) :
    (postCanvasState d id cj z n ni).canvasStates
      = d.canvasStates.map
          (fun r => if r.projectId == id then upsertRow id cj z n r else r) := by
  unfold countCanvasRows at h
  simp only [postCanvasState]
  rw [if_pos (by rw [List.length_take]; omega)]

lemma countCanvasRows_post (d : DB) (id cj : String) (z : Rat) (n : Nat)
    (ni : String) (hle : countCanvasRows d id ≤ 1) :
    countCanvasRows (postCanvasState d id cj z n ni) id = 1 := by
  by_cases hc : countCanvasRows d id = 0
  · unfold countCanvasRows
    rw [postCanvasState_insert d id cj z n ni hc]
    unfold countCanvasRows at hc
    rw [List.filter_append, List.length_append, List.length_eq_zero.mp hc]
    simp
  · unfold countCanvasRows
    rw [postCanvasState_update d id cj z n ni (by omega)]
    rw [filter_map_upsert]
    unfold countCanvasRows at hle hc
    omega

/-- C7: the canvas-state route is an upsert — existing row updated in
place, otherwise a row inserted — so two calls for the same project leave
exactly one canvas-state row for it. -/
theorem canvas_upsert_no_duplicate (db : DB) (id cj1 cj2 : String) (z1 z2 : Rat)
    (n1 n2 : Nat) (i1 i2 : String) (huniq : countCanvasRows db id ≤ 1) :
    (countCanvasRows db id = 0 →
       (postCanvasState db id cj1 z1 n1 i1).canvasStates
         = db.canvasStates ++ [⟨i1, id, cj1, z1, n1⟩]) ∧
    (0 < countCanvasRows db id →
       (postCanvasState db id cj1 z1 n1 i1).canvasStates.length
         = db.canvasStates.length) ∧
    countCanvasRows (postCanvasState db id cj1 z1 n1 i1) id = 1 ∧
    countCanvasRows (postCanvasState (postCanvasState db id cj1 z1 n1 i1) id
        cj2 z2 n2 i2) id = 1 := by
  have hone : countCanvasRows (postCanvasState db id cj1 z1 n1 i1) id = 1 :=
    countCanvasRows_post db id cj1 z1 n1 i1 huniq
  refine ⟨postCanvasState_insert db id cj1 z1 n1 i1, ?_, hone, ?_⟩
  · intro hp
    rw [postCanvasState_update db id cj1 z1 n1 i1 hp]
    simp
  · exact countCanvasRows_post _ id cj2 z2 n2 i2 (by omega)

theorem canvas_upsert_no_duplicate_witness :
    countCanvasRows sampleDB "p1" ≤ 1 ∧
    countCanvasRows (postCanvasState (postCanvasState sampleDB "p1" "j1" 1 1 "c2")
        "p1" "j2" 1 2 "c3") "p1" = 1 :=
  ⟨by decide,
   (canvas_upsert_no_duplicate sampleDB "p1" "j1" "j2" 1 1 1 2 "c2" "c3"
      (by decide)).2.2.2⟩

/-- `DELETE /api/projects/:id`: the handler deletes the matching project
rows; the `onDelete: 'cascade'` foreign keys declared in the schema on
`project_images`, `color_regions`, `recent_colors` and `canvas_states`
delete every row referencing the project with it (`recent_colors.project_id`
is nullable: null references stay). -/
def deleteProject (db : DB) (id : String) : DB × HttpResponse :=
  ({ projects := db.projects.filter (fun p => !(p.id == id)),
     projectImages := db.projectImages.filter (fun im => !(im.projectId == id)),
     colorRegions := db.colorRegions.filter (fun r => !(r.projectId == id)),
     recentColors := db.recentColors.filter (fun rc => !(rc.projectId == some id)),
     canvasStates := db.canvasStates.filter (fun c => !(c.projectId == id)) },
   ⟨200, "Project deleted successfully"⟩)

lemma all_filter_self {α : Type} (p : α → Bool) (l : List α) :
    (l.filter p).all p = true := by
  induction l with
  | nil => rfl
  | cons a t ih =>
    by_cases h : p a <;> simp [List.filter_cons, h, ih]

/-- C8: deleting a project removes its row and cascades — afterwards no
project, image, color region, canvas state or recent color referencing
the deleted id remains. -/
theorem delete_project_cascades (db : DB) (id : String) :
    ((deleteProject db id).1.projects.all (fun p => !(p.id == id)) = true) ∧
    ((deleteProject db id).1.projectImages.all
        (fun im => !(im.projectId == id)) = true) ∧
    ((deleteProject db id).1.colorRegions.all
        (fun r => !(r.projectId == id)) = true) ∧
    ((deleteProject db id).1.recentColors.all
        (fun rc => !(rc.projectId == some id)) = true) ∧
    ((deleteProject db id).1.canvasStates.all
        (fun c => !(c.projectId == id)) = true) ∧
    (deleteProject db id).2 = ⟨200, "Project deleted successfully"⟩ :=
  ⟨all_filter_self _ _, all_filter_self _ _, all_filter_self _ _,
   all_filter_self _ _, all_filter_self _ _, rfl⟩

end FurnitureCustomizer
